import Mathlib

/-!
Verification of the syncstorage handler adapters and collection cache.

The definitions below are a shallow embedding of the request handlers in
src/web/handlers.rs and the collection cache in src/db/spanner/pool.rs.
Backend database calls are represented by their results (an `Except` value per
call) or, where a claim needs backend semantics that live outside the provided
sources, by definitions modelled from the specification and marked as such.
HTTP responses are records carrying the status code, the headers the handler
attaches, and the serialized body content; body serialization itself (serde)
is abstracted to the value being serialized.
-/

namespace SyncStorage

/-- Error kinds of the storage backend (the `DbErrorKind` taxonomy the handlers
match on via `is_collection_not_found`, `is_bso_not_found`, `is_conflict`). -/
inductive DbErrorKind where
  | CollectionNotFound
  | BsoNotFound
  | BatchNotFound
  | Conflict
  | Quota
  | Internal
  deriving DecidableEq, Repr

/-- Association-list lookup, first match wins; mirrors `HashMap` lookups. -/
def alookup {κ ν : Type} [DecidableEq κ] : List (κ × ν) → κ → Option ν
  | [], _ => none
  | (k, v) :: rest, k0 => if k0 = k then some v else alookup rest k0

/-- Association-list insert-or-replace; mirrors `HashMap::insert`. -/
def aput {κ ν : Type} [DecidableEq κ] (l : List (κ × ν)) (k : κ) (v : ν) :
    List (κ × ν) :=
  (k, v) :: l.filter (fun p => p.1 ≠ k)

/-- Association-list key removal; mirrors `HashMap::remove` / row deletion. -/
def aerase {κ ν : Type} [DecidableEq κ] (l : List (κ × ν)) (k : κ) :
    List (κ × ν) :=
  l.filter (fun p => p.1 ≠ k)

/-- Modelled from the spec: `SyncTimestamp::as_header` (src/db/util.rs is not
among the provided sources). A millisecond timestamp is rendered as decimal
seconds with two fractional digits, i.e. 10 ms external granularity. -/
def asHeader (ms : Nat) : String :=
  let secs := ms / 1000
  let cents := ms % 1000 / 10
  toString secs ++ "." ++ (if cents < 10 then "0" ++ toString cents else toString cents)

/-- Header name constant (src/web/mod.rs, named in the spec). -/
def X_LAST_MODIFIED : String := "X-Last-Modified"

/-- Header name constant (src/web/mod.rs, named in the spec). -/
def X_WEAVE_RECORDS : String := "X-Weave-Records"

/-- Header name constant (src/web/mod.rs, named in the spec). -/
def X_WEAVE_NEXT_OFFSET : String := "X-Weave-Next-Offset"

/-- Response headers as attached, in order, by the handler. -/
abbrev Headers := List (String × String)

/-- `results::Paginated<T>`: a page of items plus an optional continuation
offset token. -/
structure Paginated (α : Type) where
  items : List α
  offset : Option String
  deriving Repr

/-- `Paginated::default()`: empty items, no offset. -/
def Paginated.default (α : Type) : Paginated α := { items := [], offset := none }

/-- The client-requested reply format (`ReplyFormat` in the extractors). -/
inductive ReplyFormat where
  | json
  | newlines
  deriving DecidableEq, Repr

/-- Successful response of `finish_get_collection`: the X-headers the handler
attaches plus the item list handed to the serializer and the reply format
chosen for the body. -/
structure CollectionResponse (α : Type) where
  status : Nat
  headers : Headers
  items : List α
  format : ReplyFormat
  deriving Repr

/-- `finish_get_collection` (handlers.rs lines 136-187): swallow
`CollectionNotFound` into an empty page, fetch the effective last-modified via
`extract_resource(user_id, Some(collection), None)`, then attach
`X-Last-Modified`, `X-Weave-Records` and, when the backend returned a
continuation offset, `X-Weave-Next-Offset`. The two arguments are the results
of the two backend calls. -/
def finish_get_collection {α : Type} (reply : ReplyFormat)
    (fetched : Except DbErrorKind (Paginated α))
    (extracted : Except DbErrorKind Nat) :
    Except DbErrorKind (CollectionResponse α) :=
  let swallowed : Except DbErrorKind (Paginated α) :=
    match fetched with
    | .error e =>
        if e = .CollectionNotFound then .ok (Paginated.default α)
        else .error e
    | .ok r => .ok r
  match swallowed with
  | .error e => .error e
  | .ok result =>
      match extracted with
      | .error e => .error e
      | .ok ts =>
          .ok
            { status := 200
              headers :=
                [(X_LAST_MODIFIED, asHeader ts),
                 (X_WEAVE_RECORDS, toString result.items.length)] ++
                (match result.offset with
                 | some off => [(X_WEAVE_NEXT_OFFSET, off)]
                 | none => [])
              items := result.items
              format := reply }

/-- Successful response of `delete_collection`: status, attached headers, and
the timestamp serialized as the JSON body. -/
structure DeleteCollectionResponse where
  status : Nat
  headers : Headers
  body : Nat
  deriving Repr, DecidableEq

/-- `delete_collection` (handlers.rs lines 80-115): deletes specific BSOs when
ids were supplied, else the whole collection; `CollectionNotFound` and
`BsoNotFound` are converted into the current storage timestamp; the
`X-Last-Modified` header is attached only on the delete-bsos path. The
`deleted` argument is the result of the chosen backend delete call, and
`storageTs` the result of `get_storage_timestamp`. -/
def delete_collection (ids : List String)
    (deleted : Except DbErrorKind Nat)
    (storageTs : Except DbErrorKind Nat) :
    Except DbErrorKind DeleteCollectionResponse :=
  let deleteBsos := !ids.isEmpty
  let result : Except DbErrorKind Nat :=
    match deleted with
    | .error e =>
        if e = .CollectionNotFound ∨ e = .BsoNotFound then storageTs
        else .error e
    | .ok ts => .ok ts
  result.map fun ts =>
    { status := 200
      headers := if deleteBsos then [(X_LAST_MODIFIED, asHeader ts)] else []
      body := ts }

/-- Successful response of `delete_bso`: status, headers, and the body object
`\x7b "modified": ts \x7d` represented by its timestamp. -/
structure DeleteBsoResponse where
  status : Nat
  headers : Headers
  modified : Nat
  deriving Repr, DecidableEq

/-- `delete_bso` (handlers.rs lines 355-366): returns `Ok` with the body
`\x7b "modified": result \x7d` and attaches no headers. -/
def delete_bso (deleted : Except DbErrorKind Nat) :
    Except DbErrorKind DeleteBsoResponse :=
  deleted.map fun ts => { status := 200, headers := [], modified := ts }

/-- Heartbeat response: HTTP status plus the serialized checklist fields. -/
structure HeartbeatResponse where
  status : Nat
  fields : Headers
  deriving Repr, DecidableEq

/-- `heartbeat` (handlers.rs lines 411-440): builds the checklist map in the
same insertion order as the source; `check` is the result of the backend
probe and `version` the crate version string. -/
def heartbeat (check : Except DbErrorKind Bool) (version : String) :
    HeartbeatResponse :=
  let checklist : Headers := aput [] "version" version
  match check with
  | .ok result =>
      let checklist :=
        if result then aput checklist "database" "Ok"
        else
          aput (aput checklist "database" "Err") "database_msg"
            "check failed without error"
      let status := if result then "Ok" else "Err"
      let checklist := aput checklist "status" status
      { status := 200, fields := checklist }
  | .error _ =>
      let checklist := aput checklist "status" "Err"
      let checklist := aput checklist "database" "Unknown"
      { status := 503, fields := checklist }

/-- `ONE_KB` (handlers.rs line 17). Division of a byte count by 1024.0 in
IEEE-754 double precision only shifts the exponent and is exact, so the
handler arithmetic is embedded over the rationals. -/
def ONE_KB : ℚ := 1024

/-- Successful response of `get_collection_usage`. -/
structure UsageResponse where
  status : Nat
  headers : Headers
  body : List (String × ℚ)
  deriving Repr

/-- `get_collection_usage` (handlers.rs lines 45-61): maps every per-collection
byte count to kilobytes and attaches `X-Weave-Records` with the entry count.
The argument is the map returned by the backend (distinct collection names). -/
def get_collection_usage (usage : List (String × Nat)) : UsageResponse :=
  let body := usage.map (fun p => (p.1, (p.2 : ℚ) / ONE_KB))
  { status := 200
    headers := [(X_WEAVE_RECORDS, toString body.length)]
    body := body }

/-- `get_quota` (handlers.rs lines 63-67): responds with the two-element JSON
array `[usage_kb, null]`. -/
def get_quota (usage : Nat) : List (Option ℚ) :=
  [some ((usage : ℚ) / ONE_KB), none]

/-- Modelled from the spec: the reserved well-known collections and their
reserved ids (`STD_COLLS` in src/db/mod.rs is not among the provided sources;
the spec lists the names, bound to the reserved id range starting at 1). -/
def STD_COLLS : List (Int × String) :=
  [(1, "clients"), (2, "crypto"), (3, "forms"), (4, "history"), (5, "keys"),
   (6, "meta"), (7, "bookmarks"), (8, "prefs"), (9, "tabs"), (10, "passwords"),
   (11, "addons"), (12, "addresses"), (13, "creditcards")]

/-- `CollectionCache` (src/db/spanner/pool.rs lines 92-96): two maps, one per
lookup direction, each behind its own reader-writer lock in the source. -/
structure CollectionCache where
  by_name : List (String × Int)
  by_id : List (Int × String)
  deriving Repr

/-- The first half of `CollectionCache::put`: the insert into `by_name`
performed under the `by_name` write lock, which is released before the
`by_id` lock is taken. -/
def CollectionCache.putByName (c : CollectionCache) (id : Int) (name : String) :
    CollectionCache :=
  { c with by_name := aput c.by_name name id }

/-- The second half of `CollectionCache::put`: the insert into `by_id`. -/
def CollectionCache.putById (c : CollectionCache) (id : Int) (name : String) :
    CollectionCache :=
  { c with by_id := aput c.by_id id name }

/-- `CollectionCache::put` (pool.rs lines 99-112): insert into `by_name`,
then into `by_id`, as two sequential map updates. -/
def CollectionCache.put (c : CollectionCache) (id : Int) (name : String) :
    CollectionCache :=
  (c.putByName id name).putById id name

/-- `CollectionCache::get_id` (pool.rs lines 114-121). -/
def CollectionCache.get_id (c : CollectionCache) (name : String) : Option Int :=
  alookup c.by_name name

/-- `CollectionCache::get_name` (pool.rs lines 123-130). -/
def CollectionCache.get_name (c : CollectionCache) (id : Int) : Option String :=
  alookup c.by_id id

/-- `Default for CollectionCache` (pool.rs lines 133-150): both directions
seeded from `STD_COLLS`. -/
def CollectionCache.default : CollectionCache :=
  { by_name := STD_COLLS.map (fun p => (p.2, p.1))
    by_id := STD_COLLS.map (fun p => (p.1, p.2)) }

/-- The two cache maps are mutual inverses. -/
def CollectionCache.Inv (c : CollectionCache) : Prop :=
  ∀ name id, c.get_id name = some id ↔ c.get_name id = some name

/-- A sequence of `put` calls applied in order. -/
def CollectionCache.putAll (c : CollectionCache) (ps : List (Int × String)) :
    CollectionCache :=
  ps.foldl (fun acc p => acc.put p.1 p.2) c

/-- Every id and name in the sequence is fresh at the moment it is put. -/
def CollectionCache.FreshSeq : CollectionCache → List (Int × String) → Prop
  | _, [] => True
  | c, p :: rest =>
      c.get_id p.2 = none ∧ c.get_name p.1 = none ∧
      FreshSeq (c.put p.1 p.2) rest

/-- `params::PostCollectionBso` (identical to `BatchBsoBody`): an incoming BSO
with optional fields. -/
structure PostBso where
  id : String
  sortindex : Option Int
  payload : Option String
  ttl : Option Nat
  deriving DecidableEq, Repr

/-- A stored `bso` row (src/db/mysql/schema.rs). -/
structure StoredBso where
  sortindex : Option Int
  payload : String
  payload_size : Nat
  modified : Nat
  expiry : Nat
  deriving DecidableEq, Repr

/-- Key of a `bso` row or a `batches` row: user id, collection, item id. -/
abbrev BsoKey := Nat × String × String

/-- Key of a `user_collections` row: user id, collection. -/
abbrev CollKey := Nat × String

/-- A `batches` row (schema.rs): creation timestamp and the staged BSOs. -/
structure BatchRec where
  modified : Nat
  bsos : List PostBso
  deriving DecidableEq, Repr

/-- Modelled from the spec: the persistent state of one storage backend
(src/db backend implementations are not among the provided sources); the
`collections` table is covered separately by the collection cache model. -/
structure ModelState where
  bsos : List (BsoKey × StoredBso)
  user_collections : List (CollKey × Nat)
  batches : List (BsoKey × BatchRec)
  deriving Repr

/-- Modelled from the spec: the put/post write of a single BSO at transaction
timestamp `ts`. Missing fields leave an existing row untouched; on a fresh
row `payload` defaults to the empty string and `ttl` to the configured
maximum; `expiry = modified + ttl*1000`. -/
def writeBso (maxTtl : Nat) (uid : Nat) (coll : String) (ts : Nat)
    (store : List (BsoKey × StoredBso)) (b : PostBso) :
    List (BsoKey × StoredBso) :=
  let key : BsoKey := (uid, coll, b.id)
  match alookup store key with
  | some old =>
      let payload := b.payload.getD old.payload
      aput store key
        { sortindex := match b.sortindex with
            | some s => some s
            | none => old.sortindex
          payload := payload
          payload_size := payload.utf8ByteSize
          modified := ts
          expiry := match b.ttl with
            | some t => ts + t * 1000
            | none => old.expiry }
  | none =>
      let payload := b.payload.getD ""
      aput store key
        { sortindex := b.sortindex
          payload := payload
          payload_size := payload.utf8ByteSize
          modified := ts
          expiry := ts + b.ttl.getD maxTtl * 1000 }

/-- Modelled from the spec: `post_bsos` writes every supplied BSO with the
single transaction timestamp and updates the user-collection modified. -/
def model_post_bsos (maxTtl uid : Nat) (coll : String) (ts : Nat)
    (bsos : List PostBso) (s : ModelState) : ModelState × Nat :=
  ({ s with
      bsos := bsos.foldl (writeBso maxTtl uid coll ts) s.bsos
      user_collections := aput s.user_collections (uid, coll) ts }, ts)

/-- Modelled from the spec: `create_batch` stores a staged record keyed by the
creation timestamp rendered as a string, which is the batch id. -/
def model_create_batch (uid : Nat) (coll : String) (ts : Nat)
    (bsos : List PostBso) (s : ModelState) : String × ModelState :=
  (toString ts,
   { s with
      batches := aput s.batches (uid, coll, toString ts)
        { modified := ts, bsos := bsos } })

/-- Modelled from the spec: staged appends are idempotent over the set of ids,
last writer wins per id. -/
def mergeStaged (staged : List PostBso) (more : List PostBso) : List PostBso :=
  more.foldl (fun acc b => acc.filter (fun x => x.id ≠ b.id) ++ [b]) staged

/-- Modelled from the spec: a batch is valid iff its staged record exists and
its age is below the configured batch TTL. -/
def model_validate_batch (batchTtlMs uid : Nat) (coll id : String)
    (now : Nat) (s : ModelState) : Bool :=
  match alookup s.batches (uid, coll, id) with
  | some b => now - b.modified < batchTtlMs
  | none => false

/-- Modelled from the spec: `append_to_batch` fails with `BatchNotFound` when
the batch is invalid, else merges the new BSOs into the staged record. -/
def model_append_to_batch (batchTtlMs uid : Nat) (coll id : String)
    (now : Nat) (bsos : List PostBso) (s : ModelState) :
    Except DbErrorKind ModelState :=
  match alookup s.batches (uid, coll, id) with
  | some b =>
      if now - b.modified < batchTtlMs then
        .ok { s with
          batches := aput s.batches (uid, coll, id)
            { b with bsos := mergeStaged b.bsos bsos } }
      else .error .BatchNotFound
  | none => .error .BatchNotFound

/-- Modelled from the spec: `get_batch` fetches the staged record. -/
def model_get_batch (uid : Nat) (coll id : String) (s : ModelState) :
    Option BatchRec :=
  alookup s.batches (uid, coll, id)

/-- Modelled from the spec: `commit_batch` writes the staged BSOs to `bso`
under the single transaction timestamp, updates the user-collection modified,
and removes the batch record. -/
def model_commit_batch (maxTtl uid : Nat) (coll id : String) (b : BatchRec)
    (ts : Nat) (s : ModelState) : ModelState × Nat :=
  ({ s with
      bsos := b.bsos.foldl (writeBso maxTtl uid coll ts) s.bsos
      user_collections := aput s.user_collections (uid, coll) ts
      batches := aerase s.batches (uid, coll, id) }, ts)

/-- The staged batch path of a committing batch POST without a prior batch id
(handlers.rs lines 246-251, 293-298 and 323-349, with the lines 264-291 fast
path disabled): create the batch, append the supplied BSOs, fetch and commit.
All calls run inside one request transaction with authoritative timestamp
`ts`. -/
def batchPathStaged (maxTtl batchTtlMs uid : Nat) (coll : String) (ts : Nat)
    (bsos : List PostBso) (s : ModelState) :
    Except DbErrorKind (ModelState × Nat) :=
  let created := model_create_batch uid coll ts [] s
  match model_append_to_batch batchTtlMs uid coll created.1 ts bsos created.2 with
  | .error e => .error e
  | .ok s2 =>
      match model_get_batch uid coll created.1 s2 with
      | none => .error .BatchNotFound
      | some b => .ok (model_commit_batch maxTtl uid coll created.1 b ts s2)

/-- The adapter fast path (handlers.rs lines 264-291 then 323-349): when the
POST requests commit and supplies BSOs, skip the staging write, post the BSOs
directly to `bso`, then fetch and commit the (empty) freshly created batch. -/
def batchPathFast (maxTtl uid : Nat) (coll : String) (ts : Nat)
    (bsos : List PostBso) (s : ModelState) :
    Except DbErrorKind (ModelState × Nat) :=
  let created := model_create_batch uid coll ts [] s
  let posted := model_post_bsos maxTtl uid coll ts bsos created.2
  match model_get_batch uid coll created.1 posted.1 with
  | none => .error .BatchNotFound
  | some b => .ok (model_commit_batch maxTtl uid coll created.1 b ts posted.1)

/-- Observational equality of two backend states: every row of every table
reads back the same. -/
def stateEquiv (a b : ModelState) : Prop :=
  (∀ k, alookup a.bsos k = alookup b.bsos k) ∧
  (∀ k, alookup a.user_collections k = alookup b.user_collections k) ∧
  (∀ k, alookup a.batches k = alookup b.batches k)

/-- `BatchRequest` as extracted from the HTTP request (`coll.batch`). -/
structure BatchRequest where
  id : Option String
  commit : Bool
  deriving DecidableEq, Repr

/-- `CollectionPostRequest`, restricted to the fields the batch handler reads:
the batch parameters, the valid BSOs, and the pre-failed map from request
validation. -/
structure CollPostRequest where
  batch : Option BatchRequest
  valid : List PostBso
  invalid : List (String × String)
  deriving DecidableEq, Repr

/-- The storage interface as `post_collection_batch` consumes it: the result
each backend call would return. The handler treats the database as an opaque
trait object, so its control flow is verified against an arbitrary oracle. -/
structure Db where
  validate_batch : String → Except DbErrorKind Bool
  create_batch : Except DbErrorKind String
  append_to_batch : String → List PostBso → Except DbErrorKind Unit
  post_bsos : List PostBso → Except DbErrorKind Nat
  get_batch : String → Except DbErrorKind (Option BatchRec)
  commit_batch : BatchRec → Except DbErrorKind Nat

/-- A backend call performed by the handler, recorded in order. -/
inductive DbCall where
  | validateBatchCall (id : String)
  | createBatchCall
  | appendToBatchCall (id : String) (count : Nat)
  | postBsosCall (count : Nat)
  | getBatchCall (id : String)
  | commitBatchCall
  deriving DecidableEq, Repr

/-- The handler response of a batched POST: `202 Accepted` with the batch id
when no commit was requested, else `200 OK` with the commit timestamp. -/
inductive BatchResponse where
  | accepted (success : List String) (failed : List (String × String))
      (batch : String)
  | committed (success : List String) (failed : List (String × String))
      (modified : Nat)
  deriving DecidableEq, Repr

/-- Handlers.rs lines 227-251: validate a supplied batch id (an invalid batch
is `BatchNotFound`), or create a fresh batch. Returns the calls made and the
resolved id. -/
def resolveBatchId (db : Db) (breq : BatchRequest) :
    List DbCall × Except DbErrorKind String :=
  match breq.id with
  | some id =>
      ([.validateBatchCall id],
       match db.validate_batch id with
       | .ok true => .ok id
       | .ok false => .error .BatchNotFound
       | .error e => .error e)
  | none => ([.createBatchCall], db.create_batch)

/-- Handlers.rs lines 264-299: write the supplied BSOs, directly via
`post_bsos` on the committing fast path, otherwise by appending to the
batch. -/
def writeBsosStage (db : Db) (breq : BatchRequest) (coll : CollPostRequest)
    (id : String) : List DbCall × Except DbErrorKind Unit :=
  if breq.commit && !coll.valid.isEmpty then
    ([.postBsosCall coll.valid.length],
     (db.post_bsos coll.valid).map fun _ => ())
  else
    ([.appendToBatchCall id coll.valid.length],
     db.append_to_batch id coll.valid)

/-- Handlers.rs lines 300-309: fold the write result into the success and
failed maps; a `Conflict` aborts the request, any other error moves every
supplied id into `failed` with reason "db error". -/
def collectWriteResult (bsoIds : List String)
    (invalid : List (String × String)) (r : Except DbErrorKind Unit) :
    Except DbErrorKind (List String × List (String × String)) :=
  match r with
  | .ok _ => .ok (bsoIds, invalid)
  | .error e =>
      if e = .Conflict then .error e
      else .ok ([], invalid ++ bsoIds.map (fun i => (i, "db error")))

/-- Handlers.rs lines 318-351: fetch the batch (absent means `BatchNotFound`)
and commit it. -/
def commitStage (db : Db) (id : String) (success : List String)
    (failed : List (String × String)) :
    List DbCall × Except DbErrorKind BatchResponse :=
  match db.get_batch id with
  | .error e => ([.getBatchCall id], .error e)
  | .ok none => ([.getBatchCall id], .error .BatchNotFound)
  | .ok (some b) =>
      match db.commit_batch b with
      | .error e => ([.getBatchCall id, .commitBatchCall], .error e)
      | .ok modified =>
          ([.getBatchCall id, .commitBatchCall],
           .ok (.committed success failed modified))

/-- `post_collection_batch` (handlers.rs lines 213-353), assembled from its
stages; returns the backend calls made in order and the outcome. -/
def post_collection_batch (db : Db) (coll : CollPostRequest) :
    List DbCall × Except DbErrorKind BatchResponse :=
  match coll.batch with
  | none => ([], .error .BatchNotFound)
  | some breq =>
      match resolveBatchId db breq with
      | (log1, .error e) => (log1, .error e)
      | (log1, .ok id) =>
          let bsoIds := coll.valid.map PostBso.id
          let staged := writeBsosStage db breq coll id
          match collectWriteResult bsoIds coll.invalid staged.2 with
          | .error e => (log1 ++ staged.1, .error e)
          | .ok (success, failed) =>
              if breq.commit then
                let fin := commitStage db id success failed
                (log1 ++ staged.1 ++ fin.1, fin.2)
              else
                (log1 ++ staged.1, .ok (.accepted success failed id))

/-- A concrete oracle whose validate_batch reports an invalid batch. -/
def dbInvalidBatch : Db :=
  { validate_batch := fun _ => .ok false
    create_batch := .ok "1"
    append_to_batch := fun _ _ => .ok ()
    post_bsos := fun _ => .ok 0
    get_batch := fun _ => .ok none
    commit_batch := fun _ => .ok 0 }

/-- A concrete oracle whose batch validates but whose staged record is absent
at commit time. -/
def dbGoneAtCommit : Db :=
  { validate_batch := fun _ => .ok true
    create_batch := .ok "1"
    append_to_batch := fun _ _ => .ok ()
    post_bsos := fun _ => .ok 0
    get_batch := fun _ => .ok none
    commit_batch := fun _ => .ok 0 }

/-- A concrete oracle whose write calls fail with a non-Conflict error. -/
def dbWriteInternalError : Db :=
  { validate_batch := fun _ => .ok true
    create_batch := .ok "9"
    append_to_batch := fun _ _ => .error .Internal
    post_bsos := fun _ => .error .Internal
    get_batch := fun _ => .ok (some { modified := 0, bsos := [] })
    commit_batch := fun _ => .ok 77 }

/-- A concrete oracle whose write calls fail with Conflict. -/
def dbWriteConflict : Db :=
  { validate_batch := fun _ => .ok true
    create_batch := .ok "9"
    append_to_batch := fun _ _ => .error .Conflict
    post_bsos := fun _ => .error .Conflict
    get_batch := fun _ => .ok (some { modified := 0, bsos := [] })
    commit_batch := fun _ => .ok 77 }

/-- A concrete batched POST carrying an existing batch id without commit. -/
def collReqA : CollPostRequest :=
  { batch := some { id := some "7", commit := false }
    valid := [{ id := "x1", sortindex := none, payload := some "p",
                ttl := none }]
    invalid := [] }

/-- A concrete committing batched POST with no new BSOs. -/
def collReqB : CollPostRequest :=
  { batch := some { id := some "7", commit := true }
    valid := []
    invalid := [] }

/-- A concrete non-committing batched POST with two valid BSOs and one
pre-failed entry. -/
def collReqC : CollPostRequest :=
  { batch := some { id := some "9", commit := false }
    valid := [{ id := "x1", sortindex := none, payload := some "p1",
                ttl := none },
              { id := "x2", sortindex := none, payload := some "p2",
                ttl := none }]
    invalid := [("bad", "invalid bso")] }
theorem alookup_filter_ne {κ ν : Type} [DecidableEq κ] (l : List (κ × ν))
    (k k0 : κ) (h : k0 ≠ k) :
    alookup (l.filter (fun p => p.1 ≠ k)) k0 = alookup l k0 := by
  induction l with
  | nil => rfl
  | cons p rest ih =>
    cases p with
    | mk k1 v1 =>
      by_cases hp : k1 = k
      · rw [List.filter_cons, if_neg (by simp [hp])]
        simp only [alookup]
        rw [if_neg (fun hE => h (hE.trans hp))]
        exact ih
      · rw [List.filter_cons, if_pos (by simp [hp])]
        simp only [alookup]
        by_cases hk0 : k0 = k1
        · rw [if_pos hk0, if_pos hk0]
        · rw [if_neg hk0, if_neg hk0]
          exact ih

theorem alookup_aput {κ ν : Type} [DecidableEq κ] (l : List (κ × ν))
    (k k0 : κ) (v : ν) :
    alookup (aput l k v) k0 = if k0 = k then some v else alookup l k0 := by
  unfold aput
  by_cases hk : k0 = k
  · simp [alookup, hk]
  · simp only [alookup, if_neg hk]
    exact alookup_filter_ne l k k0 hk

theorem alookup_aerase {κ ν : Type} [DecidableEq κ] (l : List (κ × ν))
    (k k0 : κ) :
    alookup (aerase l k) k0 = if k0 = k then none else alookup l k0 := by
  unfold aerase
  by_cases hk : k0 = k
  · subst hk
    rw [if_pos rfl]
    induction l with
    | nil => rfl
    | cons p rest ih =>
      cases p with
      | mk k1 v1 =>
        by_cases hp : k1 = k0
        · rw [List.filter_cons, if_neg (by simp [hp])]
          exact ih
        · rw [List.filter_cons, if_pos (by simp [hp])]
          simp only [alookup]
          rw [if_neg (fun hE => hp hE.symm)]
          exact ih
  · rw [if_neg hk]
    exact alookup_filter_ne l k k0 hk

theorem alookup_mem {κ ν : Type} [DecidableEq κ] {l : List (κ × ν)}
    {k : κ} {v : ν} (h : alookup l k = some v) : (k, v) ∈ l := by
  induction l with
  | nil => simp [alookup] at h
  | cons p rest ih =>
    cases p with
    | mk k1 v1 =>
      simp only [alookup] at h
      by_cases hk : k = k1
      · rw [if_pos hk] at h
        cases h
        cases hk
        exact List.mem_cons_self _ _
      · rw [if_neg hk] at h
        exact List.mem_cons_of_mem _ (ih h)

theorem alookup_swap_iff {l : List (Int × String)}
    (hids : (l.map Prod.fst).Nodup) (hnames : (l.map Prod.snd).Nodup)
    (name : String) (id : Int) :
    alookup (l.map (fun p => (p.2, p.1))) name = some id ↔
      alookup (l.map (fun p => (p.1, p.2))) id = some name := by
  induction l with
  | nil => simp [alookup]
  | cons p rest ih =>
    cases p with
    | mk i0 n0 =>
      simp only [List.map_cons, List.nodup_cons] at hids hnames
      simp only [List.map_cons, alookup]
      by_cases hn : name = n0
      · by_cases hi : id = i0
        · rw [if_pos hn, if_pos hi]
          subst hn; subst hi
          simp
        · rw [if_pos hn, if_neg hi]
          subst hn
          constructor
          · intro hE
            exact absurd (Option.some.inj hE).symm hi
          · intro hE
            rcases List.mem_map.mp (alookup_mem hE) with ⟨q, hq, hEq⟩
            have h2 : q.2 = name := congrArg Prod.snd hEq
            exact absurd (h2 ▸ List.mem_map_of_mem Prod.snd hq) hnames.1
      · by_cases hi : id = i0
        · rw [if_neg hn, if_pos hi]
          constructor
          · intro hE
            rcases List.mem_map.mp (alookup_mem hE) with ⟨q, hq, hEq⟩
            have h1 : q.1 = id := congrArg Prod.snd hEq
            exact absurd ((h1.trans hi) ▸ List.mem_map_of_mem Prod.fst hq)
              hids.1
          · intro hE
            exact absurd (Option.some.inj hE).symm hn
        · rw [if_neg hn, if_neg hi]
          exact ih hids.2 hnames.2

theorem CollectionCache.default_Inv : CollectionCache.default.Inv := by
  intro name id
  exact alookup_swap_iff (by decide) (by decide) name id

theorem CollectionCache.Inv_put {c : CollectionCache} (hc : c.Inv)
    {id : Int} {name : String}
    (hname : c.get_id name = none) (hid : c.get_name id = none) :
    (c.put id name).Inv := by
  intro n i
  have hgid : (c.put id name).get_id n =
      if n = name then some id else c.get_id n := by
    simp only [CollectionCache.put, CollectionCache.putByName,
      CollectionCache.putById, CollectionCache.get_id]
    exact alookup_aput c.by_name name n id
  have hgname : (c.put id name).get_name i =
      if i = id then some name else c.get_name i := by
    simp only [CollectionCache.put, CollectionCache.putByName,
      CollectionCache.putById, CollectionCache.get_name]
    exact alookup_aput c.by_id id i name
  rw [hgid, hgname]
  by_cases hn : n = name
  · by_cases hi : i = id
    · rw [if_pos hn, if_pos hi]
      subst hn; subst hi
      simp
    · rw [if_pos hn, if_neg hi]
      subst hn
      constructor
      · intro hE
        exact absurd (Option.some.inj hE).symm hi
      · intro hE
        have := (hc n i).mpr hE
        rw [hname] at this
        exact absurd this (by simp)
  · by_cases hi : i = id
    · rw [if_neg hn, if_pos hi]
      subst hi
      constructor
      · intro hE
        have := (hc n i).mp hE
        rw [hid] at this
        exact absurd this (by simp)
      · intro hE
        exact absurd (Option.some.inj hE).symm hn
    · rw [if_neg hn, if_neg hi]
      exact hc n i

theorem CollectionCache.Inv_putAll {c : CollectionCache} (hc : c.Inv)
    {ps : List (Int × String)} (hfresh : c.FreshSeq ps) :
    (c.putAll ps).Inv := by
  induction ps generalizing c with
  | nil => exact hc
  | cons p rest ih =>
    rcases hfresh with ⟨hname, hid, hrest⟩
    exact ih (CollectionCache.Inv_put hc hname hid) hrest

theorem mergeStaged_append (staged more : List PostBso)
    (hdisj : ∀ x ∈ staged, x.id ∉ more.map PostBso.id)
    (hnodup : (more.map PostBso.id).Nodup) :
    mergeStaged staged more = staged ++ more := by
  induction more generalizing staged with
  | nil => simp [mergeStaged]
  | cons b rest ih =>
    simp only [List.map_cons, List.nodup_cons] at hnodup
    have hstep : mergeStaged staged (b :: rest) =
        mergeStaged (staged.filter (fun x => x.id ≠ b.id) ++ [b]) rest := rfl
    have hfilter : staged.filter (fun x => x.id ≠ b.id) = staged := by
      rw [List.filter_eq_self]
      intro x hx
      have hx2 : x.id ≠ b.id := by
        intro hE
        exact hdisj x hx
          (by rw [List.map_cons, hE]; exact List.mem_cons_self _ _)
      simpa using hx2
    have hd2 : ∀ x ∈ staged ++ [b], x.id ∉ rest.map PostBso.id := by
      intro x hx
      rcases List.mem_append.mp hx with hx1 | hx1
      · intro hmem
        exact hdisj x hx1
          (by rw [List.map_cons]; exact List.mem_cons_of_mem _ hmem)
      · rcases List.mem_singleton.mp hx1 with rfl
        exact hnodup.1
    rw [hstep, hfilter, ih (staged ++ [b]) hd2 hnodup.2]
    simp

/-- Claim C2: a GET of a collection for which the backend reports
`CollectionNotFound` (whether fetching full BSOs via get_bsos or ids only via
get_bso_ids) succeeds with an empty item list, `X-Weave-Records` equal to 0,
and `X-Last-Modified` equal to the storage timestamp obtained via
`extract_resource`, instead of propagating the error. -/
theorem getSwallowsCollectionNotFound (α : Type) (reply : ReplyFormat)
    (ts : Nat) :
    finish_get_collection (α := α) reply (.error .CollectionNotFound)
        (.ok ts) =
      .ok { status := 200
            headers := [(X_LAST_MODIFIED, asHeader ts), (X_WEAVE_RECORDS, "0")]
            items := []
            format := reply } := by
  have h1 : finish_get_collection (α := α) reply (.error .CollectionNotFound)
      (.ok ts) =
      .ok { status := 200
            headers := [(X_LAST_MODIFIED, asHeader ts),
              (X_WEAVE_RECORDS, toString ([] : List α).length)]
            items := []
            format := reply } := rfl
  have h2 : toString ([] : List α).length = "0" := by
    show toString (0 : Nat) = "0"
    rfl
  rw [h1, h2]

/-- Claim C3: a DELETE of a collection or of specific BSO ids converts
`CollectionNotFound` and `BsoNotFound` into a success whose body is the
current storage timestamp, and propagates every other error kind
unchanged. -/
theorem deleteConvertsNotFound (ids : List String) (e : DbErrorKind)
    (ts : Nat) (storageTs : Except DbErrorKind Nat) :
    ((e = .CollectionNotFound ∨ e = .BsoNotFound) → storageTs = .ok ts →
      delete_collection ids (.error e) storageTs =
        .ok { status := 200
              headers := if ids.isEmpty then []
                else [(X_LAST_MODIFIED, asHeader ts)]
              body := ts })
    ∧ (e ≠ .CollectionNotFound → e ≠ .BsoNotFound →
        delete_collection ids (.error e) storageTs = .error e) := by
  constructor
  · intro he hts
    subst hts
    simp only [delete_collection, if_pos he]
    cases h : ids.isEmpty <;> simp [h, Except.map]
  · intro h1 h2
    simp only [delete_collection]
    rw [if_neg (by simp [h1, h2])]
    rfl

/-- Witness for C3 at concrete inputs. -/
theorem deleteConvertsNotFound_witness :
    (DbErrorKind.CollectionNotFound = DbErrorKind.CollectionNotFound ∨
       DbErrorKind.CollectionNotFound = DbErrorKind.BsoNotFound) ∧
    delete_collection ["a"] (.error .CollectionNotFound) (.ok 123450) =
      .ok { status := 200
            headers := [(X_LAST_MODIFIED, asHeader 123450)]
            body := 123450 } ∧
    delete_collection [] (.error .Conflict) (.ok 123450) =
      .error .Conflict := by
  refine ⟨Or.inl rfl, ?_, ?_⟩
  · have := (deleteConvertsNotFound ["a"] .CollectionNotFound 123450
      (.ok 123450)).1 (Or.inl rfl) rfl
    simpa using this
  · exact (deleteConvertsNotFound [] .Conflict 123450 (.ok 123450)).2
      (by decide) (by decide)

/-- Claim C5 counterexample: the successful `delete_bso` response at a
concrete timestamp attaches neither `X-Last-Modified` nor `X-Weave-Records`,
so it is not the case that every successful adapter response carries those
headers. -/
theorem everyResponseHasHeaders_cex :
    (delete_bso (.ok 7)).map (fun r => alookup r.headers X_LAST_MODIFIED) =
      .ok none ∧
    (delete_bso (.ok 7)).map (fun r => alookup r.headers X_WEAVE_RECORDS) =
      .ok none ∧
    delete_bso (.ok 7) = .ok { status := 200, headers := [], modified := 7 } :=
  ⟨rfl, rfl, rfl⟩

/-- Claim C5 amended: `finish_get_collection` attaches `X-Last-Modified`
(two-decimal rendering), `X-Weave-Records` equal to the record count, and
`X-Weave-Next-Offset` exactly when the backend returned a continuation
offset; `delete_collection` attaches `X-Last-Modified` (and never a record
count) only when specific ids were supplied; `delete_bso` attaches no
headers at all. -/
theorem responseHeaders (α : Type) (reply : ReplyFormat) (items : List α)
    (off : Option String) (ts dts bts sts : Nat) (ids : List String) :
    (finish_get_collection reply (.ok ⟨items, off⟩) (.ok ts)).map
        (fun r => (alookup r.headers X_LAST_MODIFIED,
                   alookup r.headers X_WEAVE_RECORDS,
                   alookup r.headers X_WEAVE_NEXT_OFFSET)) =
      .ok (some (asHeader ts), some (toString items.length), off) ∧
    (delete_collection ids (.ok dts) (.ok sts)).map
        (fun r => (alookup r.headers X_LAST_MODIFIED,
                   alookup r.headers X_WEAVE_RECORDS)) =
      .ok ((if ids.isEmpty then none else some (asHeader dts)), none) ∧
    (delete_bso (.ok bts)).map (fun r => r.headers) = .ok [] := by
  refine ⟨?_, ?_, rfl⟩
  · cases off <;> rfl
  · cases h : ids.isEmpty <;>
      simp [delete_collection, h, alookup, X_LAST_MODIFIED, X_WEAVE_RECORDS,
        Except.map]

/-- Claim C9: heartbeat responds with status, database and version fields;
`ServiceUnavailable` (503) when the backend probe errs, otherwise 200 with
the database status. -/
theorem heartbeatStatus (version : String) :
    (∀ e : DbErrorKind,
      (heartbeat (.error e) version).status = 503 ∧
      alookup (heartbeat (.error e) version).fields "status" = some "Err" ∧
      alookup (heartbeat (.error e) version).fields "database" =
        some "Unknown" ∧
      alookup (heartbeat (.error e) version).fields "version" =
        some version) ∧
    (∀ b : Bool,
      (heartbeat (.ok b) version).status = 200 ∧
      alookup (heartbeat (.ok b) version).fields "status" =
        some (if b then "Ok" else "Err") ∧
      alookup (heartbeat (.ok b) version).fields "database" =
        some (if b then "Ok" else "Err") ∧
      alookup (heartbeat (.ok b) version).fields "version" =
        some version) := by
  constructor
  · intro e
    refine ⟨rfl, ?_, ?_, ?_⟩ <;> simp [heartbeat, aput, alookup]
  · intro b
    cases b <;> refine ⟨rfl, ?_, ?_, ?_⟩ <;> simp [heartbeat, aput, alookup]

/-- Claim C10: collection usage and quota are reported in kilobytes — every
per-collection and total byte count is divided by 1024 before serialization —
and the quota body is a two-element array whose second element is null. -/
theorem usageReportedInKilobytes (usage : List (String × Nat)) (n : Nat) :
    (∀ c s, (c, s) ∈ usage →
        (c, (s : ℚ) / ONE_KB) ∈ (get_collection_usage usage).body) ∧
    (get_collection_usage usage).body =
      usage.map (fun p => (p.1, (p.2 : ℚ) / ONE_KB)) ∧
    get_quota n = [some ((n : ℚ) / ONE_KB), none] ∧
    (get_quota n).length = 2 ∧
    (get_quota n).getLast? = some none := by
  refine ⟨?_, rfl, rfl, rfl, rfl⟩
  intro c s hmem
  exact List.mem_map_of_mem
    (fun p : String × Nat => (p.1, (p.2 : ℚ) / ONE_KB)) hmem

/-- Witness for C10 at concrete inputs. -/
theorem usageReportedInKilobytes_witness :
    ("bookmarks", (2048 : Nat)) ∈ [("bookmarks", (2048 : Nat))] ∧
    ("bookmarks", ((2048 : Nat) : ℚ) / ONE_KB) ∈
      (get_collection_usage [("bookmarks", 2048)]).body ∧
    get_quota 4096 = [some (((4096 : Nat) : ℚ) / ONE_KB), none] :=
  ⟨List.mem_singleton.mpr rfl,
   (usageReportedInKilobytes [("bookmarks", 2048)] 4096).1 "bookmarks" 2048
     (List.mem_singleton.mpr rfl),
   (usageReportedInKilobytes [("bookmarks", 2048)] 4096).2.2.1⟩

/-- Claim C6: starting from the seeded cache (every reserved well-known pair
present in both directions), any sequence of puts whose ids and names are
fresh keeps `by_name` and `by_id` mutual inverses: get_id returns the id
exactly when get_name returns the name. -/
theorem cacheStaysBijective (ps : List (Int × String))
    (hfresh : CollectionCache.FreshSeq CollectionCache.default ps) :
    (∀ p ∈ STD_COLLS,
       CollectionCache.default.get_id p.2 = some p.1 ∧
       CollectionCache.default.get_name p.1 = some p.2) ∧
    ∀ name id,
      (CollectionCache.default.putAll ps).get_id name = some id ↔
        (CollectionCache.default.putAll ps).get_name id = some name :=
  ⟨by decide, CollectionCache.Inv_putAll CollectionCache.default_Inv hfresh⟩

/-- Witness for C6: one fresh put on the seeded cache. -/
theorem cacheStaysBijective_witness :
    CollectionCache.FreshSeq CollectionCache.default [(100, "newcoll")] ∧
    ((CollectionCache.default.putAll [(100, "newcoll")]).get_id "newcoll" =
        some 100 ↔
      (CollectionCache.default.putAll [(100, "newcoll")]).get_name 100 =
        some "newcoll") :=
  ⟨⟨rfl, rfl, trivial⟩,
   (cacheStaysBijective [(100, "newcoll")] ⟨rfl, rfl, trivial⟩).2
     "newcoll" 100⟩

/-- Claim C1: committing BSOs through the batch path — create_batch,
append_to_batch(bsos), commit_batch — produces the same final stored state
as a single post_bsos(bsos) and returns the same single transaction
timestamp, and the committing fast path that skips the staging write (post
directly, then commit the freshly created empty batch) also produces that
same state. -/
theorem batchCommitEqualsPost (maxTtl batchTtlMs uid : Nat) (coll : String)
    (ts : Nat) (bsos : List PostBso) (s : ModelState)
    (hnodup : (bsos.map PostBso.id).Nodup)
    (httl : 0 < batchTtlMs)
    (hfresh : alookup s.batches (uid, coll, toString ts) = none) :
    ∃ sA sB,
      batchPathStaged maxTtl batchTtlMs uid coll ts bsos s = .ok (sA, ts) ∧
      batchPathFast maxTtl uid coll ts bsos s = .ok (sB, ts) ∧
      (model_post_bsos maxTtl uid coll ts bsos s).2 = ts ∧
      stateEquiv sA (model_post_bsos maxTtl uid coll ts bsos s).1 ∧
      stateEquiv sB (model_post_bsos maxTtl uid coll ts bsos s).1 := by
  have hmerge : mergeStaged [] bsos = bsos := by
    simpa using mergeStaged_append [] bsos
      (fun x hx => absurd hx (List.not_mem_nil x)) hnodup
  have hA : batchPathStaged maxTtl batchTtlMs uid coll ts bsos s =
      .ok ({ bsos := bsos.foldl (writeBso maxTtl uid coll ts) s.bsos
             user_collections := aput s.user_collections (uid, coll) ts
             batches := aerase (aput (aput s.batches (uid, coll, toString ts)
               { modified := ts, bsos := [] }) (uid, coll, toString ts)
               { modified := ts, bsos := bsos }) (uid, coll, toString ts) },
            ts) := by
    simp only [batchPathStaged, model_create_batch, model_append_to_batch,
      model_get_batch, model_commit_batch]
    rw [alookup_aput, if_pos rfl]
    simp only [Nat.sub_self, httl, if_pos, hmerge]
    rw [alookup_aput, if_pos rfl]
  have hB : batchPathFast maxTtl uid coll ts bsos s =
      .ok ({ bsos := bsos.foldl (writeBso maxTtl uid coll ts) s.bsos
             user_collections := aput (aput s.user_collections (uid, coll) ts)
               (uid, coll) ts
             batches := aerase (aput s.batches (uid, coll, toString ts)
               { modified := ts, bsos := [] }) (uid, coll, toString ts) },
            ts) := by
    simp only [batchPathFast, model_create_batch, model_post_bsos,
      model_get_batch, model_commit_batch]
    rw [alookup_aput, if_pos rfl]
    rfl
  refine ⟨_, _, hA, hB, rfl, ⟨fun k => rfl, fun k => rfl, ?_⟩,
    ⟨fun k => rfl, ?_, ?_⟩⟩
  · intro k
    rw [alookup_aerase]
    by_cases hk : k = (uid, coll, toString ts)
    · rw [if_pos hk, hk]
      exact hfresh.symm
    · rw [if_neg hk, alookup_aput, if_neg hk, alookup_aput, if_neg hk]
      rfl
  · intro k
    show alookup (aput (aput s.user_collections (uid, coll) ts)
        (uid, coll) ts) k = alookup (aput s.user_collections (uid, coll) ts) k
    rw [alookup_aput, alookup_aput]
    split_ifs <;> rfl
  · intro k
    rw [alookup_aerase]
    by_cases hk : k = (uid, coll, toString ts)
    · rw [if_pos hk, hk]
      exact hfresh.symm
    · rw [if_neg hk, alookup_aput, if_neg hk]
      rfl

/-- Witness for C1 at concrete inputs. -/
theorem batchCommitEqualsPost_witness :
    (([⟨"h1", none, some "p1", none⟩] : List PostBso).map PostBso.id).Nodup ∧
    (0 : Nat) < 1 ∧
    (∃ sA sB,
      batchPathStaged 100 1 42 "history" 10
          [⟨"h1", none, some "p1", none⟩]
          { bsos := [], user_collections := [], batches := [] } =
        .ok (sA, 10) ∧
      batchPathFast 100 42 "history" 10 [⟨"h1", none, some "p1", none⟩]
          { bsos := [], user_collections := [], batches := [] } =
        .ok (sB, 10) ∧
      (model_post_bsos 100 42 "history" 10 [⟨"h1", none, some "p1", none⟩]
          { bsos := [], user_collections := [], batches := [] }).2 = 10 ∧
      stateEquiv sA (model_post_bsos 100 42 "history" 10
          [⟨"h1", none, some "p1", none⟩]
          { bsos := [], user_collections := [], batches := [] }).1 ∧
      stateEquiv sB (model_post_bsos 100 42 "history" 10
          [⟨"h1", none, some "p1", none⟩]
          { bsos := [], user_collections := [], batches := [] }).1) :=
  ⟨by decide, by decide,
   batchCommitEqualsPost 100 1 42 "history" 10
     [⟨"h1", none, some "p1", none⟩]
     { bsos := [], user_collections := [], batches := [] }
     (by decide) (by decide) rfl⟩

/-- Claim C4: a batched POST supplying an existing batch id for which
validate_batch returns false fails with BatchNotFound before any BSOs are
written (no append or post call is made); likewise a commit for which
get_batch reports the batch absent fails with BatchNotFound. -/
theorem batchNotFoundGate (db : Db) (coll : CollPostRequest)
    (breq : BatchRequest) (hb : coll.batch = some breq) :
    (∀ id, breq.id = some id → db.validate_batch id = .ok false →
      post_collection_batch db coll =
        ([.validateBatchCall id], .error .BatchNotFound) ∧
      ∀ c ∈ (post_collection_batch db coll).1,
        (∀ i n, c ≠ .appendToBatchCall i n) ∧ ∀ n, c ≠ .postBsosCall n) ∧
    (∀ id success failed, breq.commit = true →
      (resolveBatchId db breq).2 = .ok id →
      collectWriteResult (coll.valid.map PostBso.id) coll.invalid
        (writeBsosStage db breq coll id).2 = .ok (success, failed) →
      db.get_batch id = .ok none →
      (post_collection_batch db coll).2 = .error .BatchNotFound) := by
  constructor
  · intro id hid hv
    have hres : resolveBatchId db breq =
        ([.validateBatchCall id], .error .BatchNotFound) := by
      simp [resolveBatchId, hid, hv]
    have hpost : post_collection_batch db coll =
        ([.validateBatchCall id], .error .BatchNotFound) := by
      simp [post_collection_batch, hb, hres]
    refine ⟨hpost, ?_⟩
    rw [hpost]
    intro c hc
    rcases List.mem_singleton.mp hc with rfl
    exact ⟨fun i n h => DbCall.noConfusion h,
      fun n h => DbCall.noConfusion h⟩
  · intro id success failed hcommit hres hcollect hget
    rcases hR : resolveBatchId db breq with ⟨log1, r1⟩
    rw [hR] at hres
    have hr1 : r1 = .ok id := hres
    subst hr1
    have hcs : commitStage db id success failed =
        ([.getBatchCall id], .error .BatchNotFound) := by
      simp [commitStage, hget]
    simp [post_collection_batch, hb, hR, hcollect, hcommit, hcs]

/-- Witness for C4: both failure gates at concrete inputs. -/
theorem batchNotFoundGate_witness :
    post_collection_batch dbInvalidBatch collReqA =
      ([.validateBatchCall "7"], .error .BatchNotFound) ∧
    (post_collection_batch dbGoneAtCommit collReqB).2 =
      .error .BatchNotFound :=
  ⟨((batchNotFoundGate dbInvalidBatch collReqA
      { id := some "7", commit := false } rfl).1 "7" rfl rfl).1,
   (batchNotFoundGate dbGoneAtCommit collReqB
      { id := some "7", commit := true } rfl).2 "7" [] [] rfl rfl rfl rfl⟩

/-- Claim C8: when the write of the supplied BSOs (append_to_batch, or the
direct post_bsos fast path) fails with a non-Conflict error the request does
not fail on that error: every supplied BSO id is reported in the failed map
with reason "db error" and none in success, and the commit continuation,
when requested, still proceeds; a Conflict error instead fails the whole
request. -/
theorem writeErrorsReportedPerBso (db : Db) (coll : CollPostRequest)
    (breq : BatchRequest) (id : String) (e : DbErrorKind)
    (hb : coll.batch = some breq)
    (hid : (resolveBatchId db breq).2 = .ok id)
    (herr : (writeBsosStage db breq coll id).2 = .error e) :
    (e ≠ .Conflict → breq.commit = false →
      (post_collection_batch db coll).2 =
        .ok (.accepted []
          (coll.invalid ++ (coll.valid.map PostBso.id).map
            (fun i => (i, "db error"))) id)) ∧
    (e ≠ .Conflict → ∀ b m, breq.commit = true →
      db.get_batch id = .ok (some b) → db.commit_batch b = .ok m →
      (post_collection_batch db coll).2 =
        .ok (.committed []
          (coll.invalid ++ (coll.valid.map PostBso.id).map
            (fun i => (i, "db error"))) m)) ∧
    (e = .Conflict →
      (post_collection_batch db coll).2 = .error .Conflict) := by
  rcases hR : resolveBatchId db breq with ⟨log1, r1⟩
  rw [hR] at hid
  have hr1 : r1 = .ok id := hid
  subst hr1
  refine ⟨?_, ?_, ?_⟩
  · intro hne hcf
    have hcw : collectWriteResult (coll.valid.map PostBso.id) coll.invalid
        (writeBsosStage db breq coll id).2 =
        .ok ([], coll.invalid ++ (coll.valid.map PostBso.id).map
          (fun i => (i, "db error"))) := by
      rw [herr]
      simp [collectWriteResult, hne]
    simp [post_collection_batch, hb, hR, hcw, hcf]
  · intro hne b m hct hgb hcb
    have hcw : collectWriteResult (coll.valid.map PostBso.id) coll.invalid
        (writeBsosStage db breq coll id).2 =
        .ok ([], coll.invalid ++ (coll.valid.map PostBso.id).map
          (fun i => (i, "db error"))) := by
      rw [herr]
      simp [collectWriteResult, hne]
    have hcs : commitStage db id []
        (coll.invalid ++ (coll.valid.map PostBso.id).map
          (fun i => (i, "db error"))) =
        ([.getBatchCall id, .commitBatchCall],
         .ok (.committed []
           (coll.invalid ++ (coll.valid.map PostBso.id).map
             (fun i => (i, "db error"))) m)) := by
      simp [commitStage, hgb, hcb]
    simp [post_collection_batch, hb, hR, hcw, hct]
    simp only [← List.map_map]
    rw [hcs]
  · intro hcf
    have hcw : collectWriteResult (coll.valid.map PostBso.id) coll.invalid
        (writeBsosStage db breq coll id).2 = .error .Conflict := by
      rw [herr, hcf]
      simp [collectWriteResult]
    simp [post_collection_batch, hb, hR, hcw]

/-- Witness for C8 at concrete inputs: a non-Conflict write error on a
non-committing batched POST, and a Conflict abort. -/
theorem writeErrorsReportedPerBso_witness :
    (post_collection_batch dbWriteInternalError collReqC).2 =
      .ok (.accepted []
        [("bad", "invalid bso"), ("x1", "db error"), ("x2", "db error")]
        "9") ∧
    (post_collection_batch dbWriteConflict collReqC).2 =
      .error .Conflict :=
  ⟨(writeErrorsReportedPerBso dbWriteInternalError collReqC
      { id := some "9", commit := false } "9" .Internal rfl rfl rfl).1
      (by decide) rfl,
   (writeErrorsReportedPerBso dbWriteConflict collReqC
      { id := some "9", commit := false } "9" .Conflict rfl rfl rfl).2.2
      rfl⟩

/-- Claim C7: after the first half of `put(100, "newcoll")` — the `by_name`
insert, whose write lock is released before the `by_id` write lock is
acquired — a reader observes `get_id = some 100` while `get_name = none`:
one half of the new pairing, which the claim says is never observable. The
full put does publish both halves. -/
theorem putIntermediateHalfVisible :
    (CollectionCache.default.putByName 100 "newcoll").get_id "newcoll" =
      some 100 ∧
    (CollectionCache.default.putByName 100 "newcoll").get_name 100 = none ∧
    (CollectionCache.default.put 100 "newcoll").get_id "newcoll" =
      some 100 ∧
    (CollectionCache.default.put 100 "newcoll").get_name 100 =
      some "newcoll" :=
  ⟨rfl, rfl, rfl, rfl⟩

end SyncStorage

